import Mathlib

/-!
Verification of the bloom-housing risk-scoring pipeline.

Shallow embedding of the risk-scoring components of the bloom-housing
repository:

* the Integration Client's feature encoder `mapDtoToModelInput` and service
  call `getModelPrediction` (`api/src/utilities/model.helper.ts`);
* the Variant-B feature mapper `mapDtoToModelFeatures` and housing-status
  ordinal (`api/src/dtos/applications/risk.dto.ts`);
* the `risk` table of the Prisma migration
  (`api/prisma/migrations/20250530004213_add_risk_model/migration.sql`).

JavaScript-specific behaviour is modelled explicitly: truthiness of `0` and
`""`, `Number(...)`/`parseFloat(...)` semantics on stripped numeric strings,
short-circuiting of `Array.prototype.some`, and the `TypeError` raised by a
property access on a `null` array element.
-/

namespace BloomRisk

/-! Section: string and number helpers with JavaScript semantics. -/

/-- Lower-case an ASCII string, as `String.prototype.toLowerCase` does on the
ASCII keys this code compares. -/
def lowerStr (s : String) : String :=
  String.mk (s.toList.map Char.toLower)

/-- Test whether the second list is a prefix of the first. -/
def startsWithChars : List Char → List Char → Bool
  | _, [] => true
  | [], _ :: _ => false
  | h :: t, n :: m => h == n && startsWithChars t m

/-- Test whether `needle` occurs contiguously in `hay`, as `String.prototype.includes` does; used for `key.includes("veteran")`. -/
def hasSub (hay needle : List Char) : Bool :=
  match hay with
  | [] => needle == []
  | _ :: t => startsWithChars hay needle || hasSub t needle

/-- Model of `String.replace` with the pattern `[^0-9.]` and an empty replacement: keep only digits and decimal points. -/
def stripNonNumeric (s : String) : List Char :=
  s.toList.filter (fun c => c.isDigit || c == '.')

/-- Accumulate a decimal digit string into a natural number. -/
def parseDigits (cs : List Char) : Nat :=
  cs.foldl (fun a c => a * 10 + (c.toNat - 48)) 0

/-- Every character is a decimal digit. -/
def allDigits (cs : List Char) : Bool :=
  cs.all Char.isDigit

/-- JavaScript `Number(s)` on a string of digits and dots; `none` models `NaN`.
`Number("") = 0`, `Number("5.") = 5`, `Number(".5") = 0.5`, `Number(".")` and
any string with two dots are `NaN`. -/
def jsNumber (cs : List Char) : Option Rat :=
  let intPart := cs.takeWhile (fun c => c != '.')
  let rest := cs.drop intPart.length
  match rest with
  | [] => if allDigits intPart then some (parseDigits intPart) else none
  | _ :: fracPart =>
    if fracPart.contains '.' then none
    else if !(allDigits intPart && allDigits fracPart) then none
    else if intPart.isEmpty && fracPart.isEmpty then none
    else some ((parseDigits intPart : Rat)
        + (parseDigits fracPart : Rat) / ((10 : Rat) ^ fracPart.length))

/-- JavaScript `parseFloat(s)` on a string of digits and dots: parses the
longest numeric prefix; `none` models `NaN` (no leading digit or dot-digit). -/
def jsParseFloat (cs : List Char) : Option Rat :=
  let intPart := cs.takeWhile Char.isDigit
  let rest := cs.drop intPart.length
  match rest with
  | '.' :: r2 =>
    let fracPart := r2.takeWhile Char.isDigit
    if intPart.isEmpty && fracPart.isEmpty then none
    else some ((parseDigits intPart : Rat)
        + (parseDigits fracPart : Rat) / ((10 : Rat) ^ fracPart.length))
  | _ => if intPart.isEmpty then none else some (parseDigits intPart)

/-! Section: raw application data model.

`ApplicationCreate` as consumed by `mapDtoToModelInput`.  Fields that the
code guards with runtime type checks are modelled with `Option`: `none`
stands for a missing value or a value of the wrong runtime type.  An element
of `programs` or of a program's `options` that is `none` stands for a `null`
(or `undefined`) array entry. -/

structure Applicant where
  birthYear : Option Int
  deriving DecidableEq, Repr

structure HouseholdMember where
  birthYear : Option Int
  deriving DecidableEq, Repr

structure Accessibility where
  mobility : Bool
  vision : Bool
  hearing : Bool
  deriving DecidableEq, Repr

structure ProgramOption where
  key : Option String
  checked : Bool
  deriving DecidableEq, Repr

structure Program where
  key : Option String
  claimed : Option Bool
  options : Option (List (Option ProgramOption))
  deriving DecidableEq, Repr

structure ApplicationCreate where
  applicant : Option Applicant
  householdMember : Option (List HouseholdMember)
  accessibility : Option Accessibility
  programs : Option (List (Option Program))
  incomeVouchers : Bool
  income : Option String
  incomePeriod : Option String
  deriving DecidableEq, Repr

/-- Ambient state the encoder can observe besides its argument: the system
clock (`new Date()`) and the process environment (`process.env.FLASK_URL`). -/
structure WorldEnv where
  currentYear : Int
  epochMillis : Nat
  flaskUrl : String
  deriving DecidableEq, Repr

/-- The feature vector `ModelInput` sent to the scoring service. -/
structure ModelInput where
  age : Int
  income : Rat
  veteran : Bool
  benefits : Bool
  num_people : Nat
  disabled : Bool
  deriving DecidableEq, Repr

/-- A thrown JavaScript runtime error. -/
inductive JsError where
  | typeError (msg : String)
  deriving DecidableEq, Repr

/-! Section: the feature encoder `mapDtoToModelInput` of model.helper.ts. -/

/-- Field `age`: `dto.applicant?.birthYear ? Math.max(currentYear - birthYear, 18) : 30`.
A `birthYear` of `0` is falsy in JavaScript and takes the default branch. -/
def computeAge (currentYear : Int) (applicant : Option Applicant) : Int :=
  match applicant with
  | none => 30
  | some a =>
    match a.birthYear with
    | none => 30
    | some y => if y = 0 then 30 else max (currentYear - y) 18

/-- Field `num_people`: `dto.householdMember ? 1 + dto.householdMember.length : 1`.
An array (even empty) is truthy. -/
def computeNumPeople (householdMember : Option (List HouseholdMember)) : Nat :=
  match householdMember with
  | none => 1
  | some l => 1 + l.length

/-- Field `disabled`: `!!(mobility || vision || hearing)`. -/
def computeDisabled (accessibility : Option Accessibility) : Bool :=
  match accessibility with
  | none => false
  | some a => a.mobility || a.vision || a.hearing

/-- Field `income`: strip non-`[0-9.]` characters, `Number(...) || 0`, then
multiply by 12 when `incomePeriod === 'perMonth'`.  A falsy (absent or empty)
income string short-circuits to `0`. -/
def computeIncome (income : Option String) (incomePeriod : Option String) : Rat :=
  let base : Rat :=
    match income with
    | none => 0
    | some s => if s = "" then 0 else (jsNumber (stripNonNumeric s)).getD 0
  if incomePeriod = some "perMonth" then base * 12 else base

/-- The `some`-callback body over a program's options:
`typeof option.key === 'string' && option.key.toLowerCase() === target && option.checked === true`.
Accessing `option.key` on a `null` element throws a `TypeError`. -/
def optionIsCheckedKey (target : String) (o : Option ProgramOption) :
    Except JsError Bool :=
  match o with
  | none => .error (.typeError "Cannot read properties of null (reading key)")
  | some opt =>
    match opt.key with
    | none => .ok false
    | some k => .ok (lowerStr k == target && opt.checked)

/-- Model of `Array.prototype.some` with a callback that may throw: short-circuits on
the first `true`, propagates the first thrown error. -/
def someE {α : Type} (f : α → Except JsError Bool) : List α → Except JsError Bool
  | [] => .ok false
  | x :: xs =>
    match f x with
    | .error e => .error e
    | .ok true => .ok true
    | .ok false => someE f xs

/-- The `some`-callback body over `dto.programs`: skips `null`/non-object
entries and entries whose `key`/`claimed` have the wrong runtime type, then
requires a claimed veteran-keyed program with a checked "yes" option and no
checked "no" option. -/
def programVeteranStatus (p : Option Program) : Except JsError Bool :=
  match p with
  | none => .ok false
  | some prog =>
    match prog.key, prog.claimed with
    | some key, some claimed =>
      let isVeteranProgram := hasSub (lowerStr key).toList "veteran".toList && claimed
      if !isVeteranProgram then .ok false
      else
        match someE (optionIsCheckedKey "yes") (prog.options.getD []) with
        | .error e => .error e
        | .ok hasYes =>
          match someE (optionIsCheckedKey "no") (prog.options.getD []) with
          | .error e => .error e
          | .ok hasNo => .ok (isVeteranProgram && hasYes && !hasNo)
    | _, _ => .ok false

/-- Field `veteran`: the `Array.isArray(dto.programs)` guard, then `programs.some(...)`. -/
def computeVeteran (programs : Option (List (Option Program))) :
    Except JsError Bool :=
  match programs with
  | none => .ok false
  | some ps => someE programVeteranStatus ps

/-- Function `mapDtoToModelInput` of model.helper.ts: builds the `ModelInput` feature
vector; the result is an `Except` because the veteran scan can throw on a
`null` option entry. -/
def mapDtoToModelInput (env : WorldEnv) (dto : ApplicationCreate) :
    Except JsError ModelInput :=
  match computeVeteran dto.programs with
  | .error e => .error e
  | .ok veteran =>
    .ok { age := computeAge env.currentYear dto.applicant
          income := computeIncome dto.income dto.incomePeriod
          veteran := veteran
          benefits := dto.incomeVouchers
          num_people := computeNumPeople dto.householdMember
          disabled := computeDisabled dto.accessibility }

/-! Section: the Integration Client service call `getModelPrediction` of model.helper.ts. -/

/-- Outcome of the axios `POST {flaskUrl}/predict` round trip.  axios rejects
the promise on timeout, network failure, and every non-success status, so all
three land in the `catch` block of `getModelPrediction`. -/
inductive HttpOutcome where
  | success (label : String) (probability : Rat)
  | timeout
  | networkError (msg : String)
  | errorStatus (code : Nat)
  deriving DecidableEq, Repr

/-- Response mapped by `getModelPrediction` on success. -/
structure ModelPrediction where
  prediction : String
  probability : Rat
  deriving DecidableEq, Repr

/-- The exact message of the error rethrown by `getModelPrediction`. -/
def unavailableMessage : String := "Model prediction service unavailable"

/-- Function `getModelPrediction` of model.helper.ts: unwrap a successful response into
`{prediction, probability}`; rethrow every failure as the single
`"Model prediction service unavailable"` error. -/
def getModelPrediction (outcome : HttpOutcome) : Except String ModelPrediction :=
  match outcome with
  | .success label probability => .ok { prediction := label, probability := probability }
  | .timeout => .error unavailableMessage
  | .networkError _ => .error unavailableMessage
  | .errorStatus _ => .error unavailableMessage

/-! Section: the Variant-B feature mapper `mapDtoToModelFeatures` of risk.dto.ts. -/

/-- Input `ApplicationDto` of the Variant-B mapper. -/
structure ApplicationDto where
  income : Option String
  householdSize : Option Int
  housingStatus : Option String
  incomeVouchers : Bool
  householdExpectingChanges : Bool
  householdStudent : Bool
  deriving DecidableEq, Repr

/-- Variant-B feature payload `ModelFeatures`. -/
structure ModelFeatures where
  income : Rat
  household_size : Int
  housing_status : Int
  income_vouchers : Int
  household_expecting_changes : Int
  household_student : Int
  deriving DecidableEq, Repr

/-- Function `mapHousingStatus` of risk.dto.ts: homeless → 0, renting → 1,
owning → 2, anything else (or absent) → 2. -/
def mapHousingStatus (status : Option String) : Int :=
  match status with
  | none => 2
  | some s =>
    if s = "homeless" then 0
    else if s = "renting" then 1
    else if s = "owning" then 2
    else 2

/-- Field `income` in `mapDtoToModelFeatures`:
`parseFloat(dto.income?.replace(/[^0-9.]/g, '')) || 0`; an absent income
makes `parseFloat(undefined)` `NaN`, hence `0`. -/
def featuresIncome (income : Option String) : Rat :=
  match income with
  | none => 0
  | some s => (jsParseFloat (stripNonNumeric s)).getD 0

/-- Field `household_size`: `dto.householdSize || 1`; `0` is falsy, every other
number (negative included) is truthy and passes through. -/
def featuresHouseholdSize (householdSize : Option Int) : Int :=
  match householdSize with
  | none => 1
  | some n => if n = 0 then 1 else n

/-- Function `mapDtoToModelFeatures` of risk.dto.ts. -/
def mapDtoToModelFeatures (dto : ApplicationDto) : ModelFeatures :=
  { income := featuresIncome dto.income
    household_size := featuresHouseholdSize dto.householdSize
    housing_status := mapHousingStatus dto.housingStatus
    income_vouchers := if dto.incomeVouchers then 1 else 0
    household_expecting_changes := if dto.householdExpectingChanges then 1 else 0
    household_student := if dto.householdStudent then 1 else 0 }

/-! Section: the risk table of Prisma migration 20250530004213_add_risk_model. -/

/-- A row of the `risk` table; nullable columns are `Option`. -/
structure RiskRow where
  applicationId : Nat
  riskProbability : Rat
  riskPrediction : Bool
  veteran : Bool
  income : Option Rat
  disabled : Bool
  numPeople : Option Int
  age : Option Int
  benefits : Bool
  deriving DecidableEq, Repr

/-- The column defaults declared in the migration: `risk_probability`
`DEFAULT 0.0`, `risk_prediction` `DEFAULT false`, `veteran` `DEFAULT false`,
`income` `DEFAULT 0`, `disabled` `DEFAULT false`, `num_people` `DEFAULT 1`,
`age` has no default, `benefits` `DEFAULT false`. -/
def riskRowDefaults (appId : Nat) : RiskRow :=
  { applicationId := appId
    riskProbability := 0
    riskPrediction := false
    veteran := false
    income := some 0
    disabled := false
    numPeople := some 1
    age := none
    benefits := false }

/-- The `risk_application_id_key` UNIQUE index: no two rows share an
`application_id`. -/
def RiskUniqueIndex (rows : List RiskRow) : Prop :=
  rows.Pairwise (fun a b => a.applicationId ≠ b.applicationId)

/-- The effect on the `risk` table of deleting an application, under the
`ON DELETE CASCADE` foreign key `risk_application_id_fkey`: every risk row
referencing the deleted application is removed. -/
def deleteApplicationCascade (appId : Nat) (rows : List RiskRow) : List RiskRow :=
  rows.filter (fun r => r.applicationId ≠ appId)

/-! Section: the scoring service, modelled from the specification. -/

/-- Default decision threshold `0.5`, the default value of the `threshold`
parameter of the Integration Client's `mapDtoToModelInput` revision that
forwards it to the service. -/
def defaultThreshold : Rat := 1/2

/-- Modelled from the spec: the Flask scoring service's label rule
(`model/app/main.py` is not among the sources; only its documentation is).
The spec states `label = at-risk iff probability ≥ threshold`, with the
threshold being the request-supplied override or `0.5` by default. -/
def predictLabel (probability : Rat) (threshold : Option Rat) : Bool :=
  threshold.getD defaultThreshold ≤ probability

/-- Modelled from the spec: the Flask classifier (`model/app/main.py`, not
among the sources) returns a positive-class probability, which lies in
`[0,1]`; so any successful response carries such a probability. -/
def SpecServiceProbabilityInRange (outcome : HttpOutcome) : Prop :=
  ∀ label p, outcome = .success label p → 0 ≤ p ∧ p ≤ 1

/-! Section: claim-side predicates, phrased as the specification words them. -/

/-- An option entry carries the checked key `target`: the entry is a non-null
object whose `key` is a string equal (lower-cased) to `target` and whose
`checked` is `true`. -/
def OptionSaysKey (target : String) (o : Option ProgramOption) : Prop :=
  ∃ opt, o = some opt ∧ opt.checked = true ∧ ∃ k, opt.key = some k ∧ lowerStr k = target

/-- A program entry establishes veteran status as the specification words it:
the entry has `claimed == true`, its key case-insensitively contains
"veteran", an option with key "yes" is checked, and no option with key "no"
is checked. -/
def ProgramClaimsVeteran (p : Option Program) : Prop :=
  ∃ prog, p = some prog ∧ prog.claimed = some true ∧
    (∃ k, prog.key = some k ∧ hasSub (lowerStr k).toList "veteran".toList = true) ∧
    (∃ o ∈ prog.options.getD [], OptionSaysKey "yes" o) ∧
    ¬ ∃ o ∈ prog.options.getD [], OptionSaysKey "no" o

/-- A raw `programs` value yields the veteran flag, as the specification words
it: it is an array and some entry establishes veteran status. -/
def VeteranClaim (programs : Option (List (Option Program))) : Prop :=
  ∃ ps, programs = some ps ∧ ∃ p ∈ ps, ProgramClaimsVeteran p

/-- The income rule as the specification words it: strip all
non-digit/non-decimal characters from the income string, parse as a float
with default `0` on failure, and multiply by `12` exactly when the income
period is `"perMonth"`. -/
def specAnnualIncome (income : Option String) (incomePeriod : Option String) : Rat :=
  let parsed := (jsNumber (stripNonNumeric (income.getD ""))).getD 0
  if incomePeriod = some "perMonth" then parsed * 12 else parsed

/-! Section: helper lemmas. -/

theorem optionIsCheckedKey_ok_true_iff (target : String) (o : Option ProgramOption) :
    optionIsCheckedKey target o = .ok true ↔ OptionSaysKey target o := by
  constructor
  · intro h
    match o with
    | none => simp [optionIsCheckedKey] at h
    | some opt =>
      match hk : opt.key with
      | none => simp [optionIsCheckedKey, hk] at h
      | some k =>
        simp only [optionIsCheckedKey, hk, Except.ok.injEq] at h
        rw [Bool.and_eq_true, beq_iff_eq] at h
        exact ⟨opt, rfl, h.2, k, hk, h.1⟩
  · rintro ⟨opt, rfl, hch, k, hk, hlow⟩
    simp [optionIsCheckedKey, hk, hlow, hch]

theorem someE_ok_iff {α : Type} (f : α → Except JsError Bool) (l : List α) (b : Bool)
    (h : someE f l = .ok b) : b = true ↔ ∃ x ∈ l, f x = .ok true := by
  induction l with
  | nil =>
    simp only [someE, Except.ok.injEq] at h
    subst h
    simp
  | cons x xs ih =>
    simp only [someE] at h
    match hx : f x with
    | .error e => rw [hx] at h; exact absurd h (by simp)
    | .ok true =>
      rw [hx] at h
      simp only [Except.ok.injEq] at h
      subst h
      simp only [true_iff]
      exact ⟨x, List.mem_cons_self x xs, hx⟩
    | .ok false =>
      rw [hx] at h
      rw [ih h]
      constructor
      · rintro ⟨y, hy, hfy⟩
        exact ⟨y, List.mem_cons_of_mem x hy, hfy⟩
      · rintro ⟨y, hy, hfy⟩
        rcases List.mem_cons.mp hy with rfl | hy2
        · rw [hx] at hfy; exact absurd hfy (by simp)
        · exact ⟨y, hy2, hfy⟩

theorem programVeteranStatus_ok_iff (p : Option Program) (b : Bool)
    (h : programVeteranStatus p = .ok b) : b = true ↔ ProgramClaimsVeteran p := by
  match p with
  | none =>
    simp only [programVeteranStatus, Except.ok.injEq] at h
    subst h
    refine iff_of_false (by simp) ?_
    rintro ⟨prog, hp, -⟩
    exact absurd hp (by simp)
  | some prog =>
    match hkey : prog.key with
    | none =>
      simp only [programVeteranStatus, hkey, Except.ok.injEq] at h
      subst h
      refine iff_of_false (by simp) ?_
      rintro ⟨prog2, hp2, -, ⟨k, hk2, -⟩, -⟩
      rw [Option.some.injEq] at hp2
      subst hp2
      rw [hkey] at hk2
      exact absurd hk2 (by simp)
    | some key =>
      match hcl : prog.claimed with
      | none =>
        simp only [programVeteranStatus, hkey, hcl, Except.ok.injEq] at h
        subst h
        refine iff_of_false (by simp) ?_
        rintro ⟨prog2, hp2, hcl2, -⟩
        rw [Option.some.injEq] at hp2
        subst hp2
        rw [hcl] at hcl2
        exact absurd hcl2 (by simp)
      | some claimed =>
        simp only [programVeteranStatus, hkey, hcl] at h
        by_cases hvet : (hasSub (lowerStr key).toList "veteran".toList && claimed) = true
        · rw [hvet, Bool.not_true] at h
          rw [if_neg (by simp)] at h
          rw [Bool.and_eq_true] at hvet
          match hys : someE (optionIsCheckedKey "yes") (prog.options.getD []) with
          | .error e => rw [hys] at h; exact absurd h (by simp)
          | .ok hasYes =>
            rw [hys] at h
            match hns : someE (optionIsCheckedKey "no") (prog.options.getD []) with
            | .error e => rw [hns] at h; exact absurd h (by simp)
            | .ok hasNo =>
              rw [hns] at h
              simp only [Bool.true_and, Except.ok.injEq] at h
              subst h
              have hYes := someE_ok_iff _ _ _ hys
              have hNo := someE_ok_iff _ _ _ hns
              constructor
              · intro hb
                rw [Bool.and_eq_true, Bool.not_eq_true'] at hb
                refine ⟨prog, rfl, by rw [hcl, hvet.2], ⟨key, hkey, hvet.1⟩, ?_, ?_⟩
                · rcases hYes.mp hb.1 with ⟨o, ho, hok⟩
                  exact ⟨o, ho, (optionIsCheckedKey_ok_true_iff _ _).mp hok⟩
                · rintro ⟨o, ho, hsays⟩
                  have h2 : hasNo = true :=
                    hNo.mpr ⟨o, ho, (optionIsCheckedKey_ok_true_iff _ _).mpr hsays⟩
                  rw [h2] at hb
                  exact absurd hb.2 (by simp)
              · rintro ⟨prog2, hp2, -, -, hyes, hno⟩
                rw [Option.some.injEq] at hp2
                subst hp2
                have h1 : hasYes = true := by
                  rcases hyes with ⟨o, ho, hsays⟩
                  exact hYes.mpr ⟨o, ho, (optionIsCheckedKey_ok_true_iff _ _).mpr hsays⟩
                have h2 : hasNo = false := by
                  by_contra hc
                  rw [Bool.not_eq_false] at hc
                  rcases hNo.mp hc with ⟨o, ho, hok⟩
                  exact hno ⟨o, ho, (optionIsCheckedKey_ok_true_iff _ _).mp hok⟩
                rw [h1, h2]
                rfl
        · rw [Bool.not_eq_true] at hvet
          rw [hvet, Bool.not_false] at h
          rw [if_pos rfl] at h
          simp only [Except.ok.injEq] at h
          subst h
          refine iff_of_false (by simp) ?_
          rintro ⟨prog2, hp2, hcl2, ⟨k, hk2, hsub⟩, -⟩
          rw [Option.some.injEq] at hp2
          subst hp2
          rw [hkey, Option.some.injEq] at hk2
          subst hk2
          rw [hcl, Option.some.injEq] at hcl2
          rw [hsub, hcl2] at hvet
          exact absurd hvet (by simp)

theorem someE_ok_false_forall {α : Type} (f : α → Except JsError Bool) (l : List α)
    (h : someE f l = .ok false) : ∀ x ∈ l, f x = .ok false := by
  induction l with
  | nil => intro x hx; exact absurd hx (List.not_mem_nil x)
  | cons y ys ih =>
    intro x hx
    simp only [someE] at h
    match hy : f y with
    | .error e => rw [hy] at h; exact absurd h (by simp)
    | .ok true => rw [hy] at h; exact absurd h (by simp)
    | .ok false =>
      rw [hy] at h
      rcases List.mem_cons.mp hx with rfl | hx2
      · exact hy
      · exact ih h x hx2

theorem computeVeteran_ok_iff (programs : Option (List (Option Program))) (b : Bool)
    (h : computeVeteran programs = .ok b) : b = true ↔ VeteranClaim programs := by
  match programs with
  | none =>
    simp only [computeVeteran, Except.ok.injEq] at h
    subst h
    refine iff_of_false (by simp) ?_
    rintro ⟨ps, hps, -⟩
    exact absurd hps (by simp)
  | some ps =>
    simp only [computeVeteran] at h
    constructor
    · intro hb
      subst hb
      rcases (someE_ok_iff _ _ _ h).mp rfl with ⟨p, hp, hok⟩
      exact ⟨ps, rfl, p, hp, (programVeteranStatus_ok_iff p true hok).mp rfl⟩
    · rintro ⟨ps', hps', p, hp, hclaims⟩
      rw [Option.some.injEq] at hps'
      subst hps'
      by_contra hb
      rw [Bool.not_eq_true] at hb
      subst hb
      have hall := someE_ok_false_forall _ _ h p hp
      have := (programVeteranStatus_ok_iff p false hall).mpr hclaims
      exact absurd this (by simp)

theorem mapDtoToModelInput_ok (env : WorldEnv) (dto : ApplicationCreate)
    (out : ModelInput) (h : mapDtoToModelInput env dto = .ok out) :
    computeVeteran dto.programs = .ok out.veteran ∧
    out.age = computeAge env.currentYear dto.applicant ∧
    out.income = computeIncome dto.income dto.incomePeriod ∧
    out.benefits = dto.incomeVouchers ∧
    out.num_people = computeNumPeople dto.householdMember ∧
    out.disabled = computeDisabled dto.accessibility := by
  simp only [mapDtoToModelInput] at h
  match hv : computeVeteran dto.programs with
  | .error e => rw [hv] at h; exact absurd h (by simp)
  | .ok v =>
    rw [hv] at h
    simp only [Except.ok.injEq] at h
    subst h
    exact ⟨rfl, rfl, rfl, rfl, rfl, rfl⟩

theorem computeAge_ge_18 (currentYear : Int) (applicant : Option Applicant) :
    18 ≤ computeAge currentYear applicant := by
  match applicant with
  | none => norm_num [computeAge]
  | some ⟨none⟩ => norm_num [computeAge]
  | some ⟨some y⟩ =>
    simp only [computeAge]
    by_cases hy : y = 0
    · simp only [if_pos hy]; norm_num
    · simp only [if_neg hy]; exact le_max_right _ _

theorem computeIncome_eq_spec (income : Option String) (incomePeriod : Option String) :
    computeIncome income incomePeriod = specAnnualIncome income incomePeriod := by
  match income with
  | none => rfl
  | some s =>
    by_cases hs : s = ""
    · subst hs; rfl
    · simp only [computeIncome, specAnnualIncome, if_neg hs, Option.getD_some]

/-! Section: concrete fixtures used by boundary examples, counterexamples and
witnesses. -/

/-- Sample environment: year 2025, clock at 0 ms, default service URL. -/
def envA : WorldEnv :=
  { currentYear := 2025, epochMillis := 0, flaskUrl := "http://localhost:5000" }

/-- Same calendar year as `envA` but a different clock reading. -/
def envA2 : WorldEnv :=
  { currentYear := 2025, epochMillis := 86400000, flaskUrl := "http://localhost:5000" }

/-- Sample environment one year later. -/
def envB : WorldEnv :=
  { currentYear := 2026, epochMillis := 0, flaskUrl := "http://localhost:5000" }

/-- An empty raw application: every field absent or false. -/
def emptyDto : ApplicationCreate :=
  { applicant := none, householdMember := none, accessibility := none,
    programs := none, incomeVouchers := false, income := none, incomePeriod := none }

/-- A claimed veteran program with a single checked "yes" option. -/
def vetYesProgram : Program :=
  { key := some "Veteran Status", claimed := some true,
    options := some [some { key := some "yes", checked := true }] }

/-- The same program with a checked "no" option added. -/
def vetYesNoProgram : Program :=
  { key := some "Veteran Status", claimed := some true,
    options := some [some { key := some "yes", checked := true },
                     some { key := some "no", checked := true }] }

/-- A claimed veteran program whose options array contains a `null` entry. -/
def vetNullOptionProgram : Program :=
  { key := some "Veteran Status", claimed := some true, options := some [none] }

/-- Application claiming the veteran program with only "yes" checked. -/
def vetYesDto : ApplicationCreate :=
  { emptyDto with programs := some [some vetYesProgram] }

/-- Application claiming the veteran program with "yes" and "no" both checked. -/
def vetYesNoDto : ApplicationCreate :=
  { emptyDto with programs := some [some vetYesNoProgram] }

/-- Application whose veteran program carries a `null` option entry. -/
def vetNullOptionDto : ApplicationCreate :=
  { emptyDto with programs := some [some vetNullOptionProgram] }

/-- Applicant born in 2020: seen from 2025 the raw age is 5. -/
def minorDto : ApplicationCreate :=
  { emptyDto with applicant := some { birthYear := some 2020 } }

/-- Applicant born in 1990. -/
def adultDto : ApplicationCreate :=
  { emptyDto with applicant := some { birthYear := some 1990 } }

/-- Application with a formatted monthly income. -/
def monthlyIncomeDto : ApplicationCreate :=
  { emptyDto with income := some "$1,000", incomePeriod := some "perMonth" }

/-- An application whose Variant-B household size is negative. -/
def negativeHouseholdDto : ApplicationDto :=
  { income := none, householdSize := some (-2), housingStatus := none,
    incomeVouchers := false, householdExpectingChanges := false,
    householdStudent := false }

/-- An application with a Variant-B household size of 3. -/
def householdOfThreeDto : ApplicationDto :=
  { income := none, householdSize := some 3, housingStatus := some "renting",
    incomeVouchers := true, householdExpectingChanges := false,
    householdStudent := true }

theorem riskUniqueIndex_count :
    ∀ (rows : List RiskRow) (appId : Nat), RiskUniqueIndex rows →
      (rows.filter (fun r => r.applicationId == appId)).length ≤ 1 := by
  intro rows appId
  induction rows with
  | nil => intro h; simp
  | cons a l ih =>
    intro h
    rw [RiskUniqueIndex, List.pairwise_cons] at h
    rw [List.filter_cons]
    by_cases ha : (a.applicationId == appId) = true
    · rw [if_pos ha]
      have hnil : l.filter (fun r => r.applicationId == appId) = [] := by
        rw [List.filter_eq_nil_iff]
        intro b hb
        have hne := h.1 b hb
        rw [beq_iff_eq] at ha
        simp only [beq_iff_eq]
        intro hbeq
        exact hne (by rw [ha, hbeq])
      rw [hnil]
      simp
    · rw [if_neg ha]
      exact ih h.2

/-! Section: the claims. -/

/-- C1: for every scoring request the label is a function of the returned
probability and the threshold only: at-risk iff probability ≥ threshold,
where the threshold is the request-supplied override or 0.5 by default; in
particular, with the default threshold a probability of exactly 0.5
classifies as at-risk. -/
theorem claim_C1 :
    (∀ p t, predictLabel p (some t) = true ↔ t ≤ p)
    ∧ (∀ p, predictLabel p none = true ↔ defaultThreshold ≤ p)
    ∧ predictLabel (1/2) none = true := by
  refine ⟨?_, ?_, ?_⟩
  · intro p t
    simp [predictLabel]
  · intro p
    simp [predictLabel]
  · norm_num [predictLabel, defaultThreshold]

/-- C2 counterexample: an applicant born in 2020 seen from 2025 yields a raw
age of 5, which the encoder clamps to 18; the claim's "defaults to 30 if
birthYear yields an age below 18" demands 30 instead. -/
theorem claim_C2_counterexample :
    (mapDtoToModelInput envA minorDto).map ModelInput.age = .ok 18
    ∧ (18 : Int) ≠ 30 :=
  ⟨rfl, by decide⟩

/-- C2 (amended): the encoded age is `max (currentYear − birthYear) 18` when
a nonzero birthYear is present — an under-18 raw age is clamped to 18, not
defaulted to 30 — and is 30 when birthYear is absent (or 0, which is falsy);
every encoded age is ≥ 18. -/
theorem claim_C2 (env : WorldEnv) (dto : ApplicationCreate) (out : ModelInput)
    (h : mapDtoToModelInput env dto = .ok out) :
    ((dto.applicant = none
        ∨ (∃ a, dto.applicant = some a ∧ (a.birthYear = none ∨ a.birthYear = some 0)))
      → out.age = 30)
    ∧ (∀ a y, dto.applicant = some a → a.birthYear = some y → y ≠ 0 →
        out.age = max (env.currentYear - y) 18)
    ∧ 18 ≤ out.age := by
  have hage := (mapDtoToModelInput_ok env dto out h).2.1
  refine ⟨?_, ?_, ?_⟩
  · rintro (hnone | ⟨a, ha, hb | hb⟩)
    · rw [hage, hnone]
      rfl
    · rw [hage, ha]
      simp [computeAge, hb]
    · rw [hage, ha]
      simp [computeAge, hb]
  · intro a y ha hy hy0
    rw [hage, ha]
    simp [computeAge, hy, hy0]
  · rw [hage]
    exact computeAge_ge_18 _ _

/-- C2 witness: the amended claim applied to an applicant born in 1990 as of
2025: encoded age 35 = max (2025 − 1990) 18 and 35 ≥ 18. -/
theorem claim_C2_witness :
    18 ≤ ({ age := 35, income := 0, veteran := false, benefits := false,
            num_people := 1, disabled := false } : ModelInput).age
    ∧ ({ age := 35, income := 0, veteran := false, benefits := false,
         num_people := 1, disabled := false } : ModelInput).age
        = max (envA.currentYear - 1990) 18 := by
  have h := claim_C2 envA adultDto
      { age := 35, income := 0, veteran := false, benefits := false,
        num_people := 1, disabled := false } rfl
  exact ⟨h.2.2, h.2.1 { birthYear := some 1990 } 1990 rfl rfl (by decide)⟩

/-- C3: the encoded annualized income strips all non-digit/non-decimal
characters from the income string, parses it as a float with default 0 on
failure, and multiplies by 12 exactly when the income period is "perMonth";
in particular income "$1,000" with incomePeriod "perMonth" encodes to
12000. -/
theorem claim_C3 :
    (∀ env dto out, mapDtoToModelInput env dto = .ok out →
        out.income = specAnnualIncome dto.income dto.incomePeriod)
    ∧ computeIncome (some "$1,000") (some "perMonth") = 12000 := by
  constructor
  · intro env dto out h
    rw [(mapDtoToModelInput_ok env dto out h).2.2.1, computeIncome_eq_spec]
  · simp [computeIncome, stripNonNumeric, jsNumber, parseDigits, allDigits]
    norm_num

/-- C3 witness: the income rule applied to the "$1,000"-per-month
application: the encoded income 12000 equals the spec's formula on that
input. -/
theorem claim_C3_witness :
    ({ age := 30, income := 12000, veteran := false, benefits := false,
       num_people := 1, disabled := false } : ModelInput).income
      = specAnnualIncome monthlyIncomeDto.income monthlyIncomeDto.incomePeriod := by
  refine claim_C3.1 envA monthlyIncomeDto _ ?_
  have h : computeIncome (some "$1,000") (some "perMonth") = 12000 := by
    simp [computeIncome, stripNonNumeric, jsNumber, parseDigits, allDigits]
    norm_num
  simp only [mapDtoToModelInput, monthlyIncomeDto, emptyDto, computeVeteran, h]
  rfl

/-- C4: the encoded veteran flag is true iff some program entry has
claimed == true, its key case-insensitively contains "veteran", an option
with key "yes" is checked, and no option with key "no" is checked; a claimed
"Veteran Status" program with a checked "yes" option yields veteran = true,
and additionally checking "no" on the same entry yields veteran = false. -/
theorem claim_C4 :
    (∀ env dto out, mapDtoToModelInput env dto = .ok out →
        (out.veteran = true ↔ VeteranClaim dto.programs))
    ∧ (mapDtoToModelInput envA vetYesDto).map ModelInput.veteran = .ok true
    ∧ (mapDtoToModelInput envA vetYesNoDto).map ModelInput.veteran = .ok false := by
  refine ⟨?_, rfl, rfl⟩
  intro env dto out h
  exact computeVeteran_ok_iff _ _ (mapDtoToModelInput_ok env dto out h).1

/-- C4 witness: the veteran rule applied to the claimed "Veteran Status"
program with a checked "yes" option: the claim's condition holds of it. -/
theorem claim_C4_witness : VeteranClaim vetYesDto.programs := by
  have h := claim_C4.1 envA vetYesDto
      { age := 30, income := 0, veteran := true, benefits := false,
        num_people := 1, disabled := false } rfl
  exact h.mp rfl

/-- C5: whenever the call to the scoring service times out, fails, or yields
a non-success response, getModelPrediction raises the distinct
"Model prediction service unavailable" error and returns no score; any score
it does return comes verbatim from a successful service response, never from
a default or fabrication. -/
theorem claim_C5 :
    (∀ m c, getModelPrediction .timeout = .error unavailableMessage
      ∧ getModelPrediction (.networkError m) = .error unavailableMessage
      ∧ getModelPrediction (.errorStatus c) = .error unavailableMessage)
    ∧ (∀ outcome r, getModelPrediction outcome = .ok r →
        ∃ lbl p, outcome = .success lbl p ∧ r.prediction = lbl ∧ r.probability = p) := by
  refine ⟨fun m c => ⟨rfl, rfl, rfl⟩, ?_⟩
  intro outcome r h
  match outcome with
  | .success lbl p =>
    simp only [getModelPrediction, Except.ok.injEq] at h
    subst h
    exact ⟨lbl, p, rfl, rfl, rfl⟩
  | .timeout => exact absurd h (by simp [getModelPrediction])
  | .networkError m => exact absurd h (by simp [getModelPrediction])
  | .errorStatus c => exact absurd h (by simp [getModelPrediction])

/-- C5 witness: a successful response with label "At Risk" and probability
1/2 is passed through verbatim. -/
theorem claim_C5_witness :
    ∃ lbl p, (HttpOutcome.success "At Risk" (1/2)) = .success lbl p
      ∧ ({ prediction := "At Risk", probability := 1/2 } : ModelPrediction).prediction = lbl
      ∧ ({ prediction := "At Risk", probability := 1/2 } : ModelPrediction).probability = p :=
  claim_C5.2 (.success "At Risk" (1/2)) _ rfl

/-- C6 counterexample: the encoder reads the system clock's year, so two
invocations on the identical application in different years produce
different feature vectors (age 35 against 36). -/
theorem claim_C6_counterexample :
    mapDtoToModelInput envA adultDto ≠ mapDtoToModelInput envB adultDto := by
  intro h
  have ha : (mapDtoToModelInput envA adultDto).map ModelInput.age = .ok 35 := rfl
  have hb : (mapDtoToModelInput envB adultDto).map ModelInput.age = .ok 36 := rfl
  rw [h, hb] at ha
  exact absurd (Except.ok.inj ha) (by decide)

/-- C6 (amended): the encoder is deterministic given the current calendar
year: any two invocations on the identical application under environments
that agree on the year — regardless of any other ambient state — produce
the identical result; the year is the only thing outside the input the
encoder depends on. -/
theorem claim_C6 (e1 e2 : WorldEnv) (dto : ApplicationCreate)
    (h : e1.currentYear = e2.currentYear) :
    mapDtoToModelInput e1 dto = mapDtoToModelInput e2 dto := by
  simp only [mapDtoToModelInput, h]

/-- C6 witness: two environments in the same year but with different clock
readings encode the 1990-born applicant identically. -/
theorem claim_C6_witness :
    envA.currentYear = envA2.currentYear
    ∧ mapDtoToModelInput envA adultDto = mapDtoToModelInput envA2 adultDto :=
  ⟨rfl, claim_C6 envA envA2 adultDto rfl⟩

/-- C7: evaluating the encoder on an application whose claimed veteran
program carries a `null` option entry: the option scan reads `.key` of
`null` and throws a TypeError, so encoding aborts instead of skipping the
malformed entry as the specification requires. -/
theorem claim_C7 :
    mapDtoToModelInput envA vetNullOptionDto
      = .error (.typeError "Cannot read properties of null (reading key)") := rfl

/-- C8: under the spec-modelled guarantee that the scoring service's
successful responses carry a probability in [0,1], every probability
getModelPrediction hands to the caller lies in [0,1], and the persisted
riskProbability default 0.0 lies in [0,1]. -/
theorem claim_C8 :
    (∀ outcome out, SpecServiceProbabilityInRange outcome →
        getModelPrediction outcome = .ok out →
        0 ≤ out.probability ∧ out.probability ≤ 1)
    ∧ (∀ appId, 0 ≤ (riskRowDefaults appId).riskProbability
        ∧ (riskRowDefaults appId).riskProbability ≤ 1) := by
  constructor
  · intro outcome out hrange h
    match outcome with
    | .success lbl p =>
      simp only [getModelPrediction, Except.ok.injEq] at h
      subst h
      exact hrange lbl p rfl
    | .timeout => exact absurd h (by simp [getModelPrediction])
    | .networkError m => exact absurd h (by simp [getModelPrediction])
    | .errorStatus c => exact absurd h (by simp [getModelPrediction])
  · intro appId
    constructor
    · norm_num [riskRowDefaults]
    · norm_num [riskRowDefaults]

/-- C8 witness: a successful response with probability 1/2 yields a returned
probability within [0,1]. -/
theorem claim_C8_witness :
    0 ≤ ({ prediction := "At Risk", probability := 1/2 } : ModelPrediction).probability
    ∧ ({ prediction := "At Risk", probability := 1/2 } : ModelPrediction).probability ≤ 1 :=
  claim_C8.1 (.success "At Risk" (1/2)) _
    (fun lbl p hp => by
      rw [HttpOutcome.success.injEq] at hp
      rw [← hp.2]
      norm_num)
    rfl

/-- C9: under the unique index on application_id there is at most one risk
row per application; the cascade delete triggered by deleting an application
leaves no row of that application; and the migration's column defaults are
riskProbability 0.0, riskPrediction false and numPeople 1. -/
theorem claim_C9 (rows : List RiskRow) (appId : Nat) (h : RiskUniqueIndex rows) :
    (rows.filter (fun r => r.applicationId == appId)).length ≤ 1
    ∧ (∀ r ∈ deleteApplicationCascade appId rows, r.applicationId ≠ appId)
    ∧ (riskRowDefaults appId).riskProbability = 0
    ∧ (riskRowDefaults appId).riskPrediction = false
    ∧ (riskRowDefaults appId).numPeople = some 1 := by
  refine ⟨riskUniqueIndex_count rows appId h, ?_, rfl, rfl, rfl⟩
  intro r hr
  have hmem := List.mem_filter.mp hr
  exact of_decide_eq_true hmem.2

/-- C9 witness: a two-row table with distinct application ids has at most
one row for application 1, and its defaults are as stated. -/
theorem claim_C9_witness :
    (([riskRowDefaults 1, riskRowDefaults 2].filter
        (fun r => r.applicationId == 1)).length ≤ 1)
    ∧ (riskRowDefaults 1).riskProbability = 0 := by
  have h := claim_C9 [riskRowDefaults 1, riskRowDefaults 2] 1
      (by constructor
          · intro b hb
            rw [List.mem_singleton] at hb
            subst hb
            decide
          · exact List.pairwise_singleton _ _)
  exact ⟨h.1, h.2.2.1⟩

/-- C10 counterexample: a householdSize of −2 is truthy in JavaScript and
passes through `dto.householdSize || 1` unchanged, so household_size = −2
and the claimed invariant household_size ≥ 1 fails. -/
theorem claim_C10_counterexample :
    (mapDtoToModelFeatures negativeHouseholdDto).household_size = -2
    ∧ ¬ (1 ≤ (mapDtoToModelFeatures negativeHouseholdDto).household_size) :=
  ⟨rfl, by decide⟩

/-- C10 (amended): the Variant-B mapper encodes an absent householdSize and
a householdSize of 0 as 1, passes any nonzero householdSize through
unchanged, and therefore outputs household_size ≥ 1 for every application
whose householdSize is absent or non-negative; a negative householdSize
passes through below 1. -/
theorem claim_C10 (dto : ApplicationDto) :
    ((dto.householdSize = none ∨ dto.householdSize = some 0) →
        (mapDtoToModelFeatures dto).household_size = 1)
    ∧ (∀ n, dto.householdSize = some n → n ≠ 0 →
        (mapDtoToModelFeatures dto).household_size = n)
    ∧ (∀ n, dto.householdSize = some n → 0 ≤ n →
        1 ≤ (mapDtoToModelFeatures dto).household_size)
    ∧ (dto.householdSize = none → 1 ≤ (mapDtoToModelFeatures dto).household_size) := by
  refine ⟨?_, ?_, ?_, ?_⟩
  · rintro (hn | hn)
    · simp [mapDtoToModelFeatures, featuresHouseholdSize, hn]
    · simp [mapDtoToModelFeatures, featuresHouseholdSize, hn]
  · intro n hn hn0
    simp [mapDtoToModelFeatures, featuresHouseholdSize, hn, hn0]
  · intro n hn hn0
    simp only [mapDtoToModelFeatures, featuresHouseholdSize, hn]
    by_cases h0 : n = 0
    · simp [h0]
    · simp only [if_neg h0]
      omega
  · intro hn
    simp [mapDtoToModelFeatures, featuresHouseholdSize, hn]

/-- C10 witness: a household size of 3 is encoded as 3 and satisfies the
≥ 1 bound. -/
theorem claim_C10_witness :
    (mapDtoToModelFeatures householdOfThreeDto).household_size = 3
    ∧ 1 ≤ (mapDtoToModelFeatures householdOfThreeDto).household_size :=
  ⟨(claim_C10 householdOfThreeDto).2.1 3 rfl (by decide),
   (claim_C10 householdOfThreeDto).2.2.1 3 rfl (by decide)⟩

end BloomRisk
